import Mathlib

/-
Shallow embedding of the collaborative-whiteboard server (src/server.js).
JS `Map` objects are modelled by insertion-ordered association lists whose
`set` overwrites in place; socket-attached fields (`socket.roomId`,
`socket.username`, `socket.role`) are modelled by a per-socket record that
is never cleared (the source never unsets them), and `connectedUsers` is a
separate map that IS deleted from on leave, exactly as in the source.
-/

namespace WB

/-- JS Map.set: overwrite the first entry with this key in place, else append. -/
def mapSet {α β : Type} [DecidableEq α] : List (α × β) → α → β → List (α × β)
  | [], k, v => [(k, v)]
  | p :: rest, k, v => if p.1 = k then (k, v) :: rest else p :: mapSet rest k v

/-- JS Map.get: value at the first entry with this key. -/
def mapGet {α β : Type} [DecidableEq α] (m : List (α × β)) (k : α) : Option β :=
  (m.find? (fun p => decide (p.1 = k))).map (fun p => p.2)

/-- JS Map.has. -/
def mapHas {α β : Type} [DecidableEq α] (m : List (α × β)) (k : α) : Bool :=
  m.any (fun p => decide (p.1 = k))

/-- JS Map.delete. -/
def mapDelete {α β : Type} [DecidableEq α] (m : List (α × β)) (k : α) : List (α × β) :=
  m.filter (fun p => decide (p.1 ≠ k))

/-- In-place mutation of the object stored at a key (JS aliasing). -/
def mapUpdate {α β : Type} [DecidableEq α] (m : List (α × β)) (k : α) (f : β → β) :
    List (α × β) :=
  m.map (fun p => if p.1 = k then (p.1, f p.2) else p)

/-- A participant-directory entry (server.js lines 80-86 and 129-135). -/
structure Participant where
  pid : String
  username : String
  role : String
  ready : Bool
  joinedAt : Nat
  deriving DecidableEq, Repr

/-- Payload of an inbound `drawing` event: `data.type`, `data.slideIndex`
and the opaque stroke payload. -/
structure DrawPayload where
  dtype : String
  slideIndex : Option Nat
  payload : String
  deriving DecidableEq, Repr

/-- A stored drawing record: `{...data, userId, username, role, timestamp}`. -/
structure DrawingData where
  dtype : String
  slideIndex : Option Nat
  payload : String
  userId : String
  username : String
  role : String
  timestamp : Nat
  deriving DecidableEq, Repr

/-- The per-room settings block (server.js lines 69-75). -/
structure Settings where
  hostCanClear : Bool
  hostCanMute : Bool
  participantsCanDraw : Bool
  participantsCanChat : Bool
  maxParticipants : Nat
  deriving DecidableEq, Repr

def defaultSettings : Settings :=
  { hostCanClear := true, hostCanMute := true, participantsCanDraw := true,
    participantsCanChat := true, maxParticipants := 50 }

/-- A room (server.js lines 59-77).  `slideDrawings` is keyed by the slide
index: the source keys it by the string `slide_N`, and `n ↦ "slide_" ++ toString n`
is injective on naturals, so the integer-keyed map is an exact model. -/
structure Room where
  id : String
  host : String
  state : String
  participants : List (String × Participant)
  drawings : List DrawingData
  backgroundImage : Option String
  slides : List String
  currentSlide : Nat
  slideDrawings : List (Nat × List DrawingData)
  settings : Settings
  createdAt : Nat
  deriving DecidableEq, Repr

/-- Fields the source attaches to the socket object (never unset). -/
structure SocketInfo where
  roomId : Option String
  username : Option String
  role : Option String
  deriving DecidableEq, Repr

/-- A `connectedUsers` entry. -/
structure UserInfo where
  roomId : String
  username : String
  role : String
  deriving DecidableEq, Repr

structure ServerState where
  rooms : List (String × Room)
  connectedUsers : List (String × UserInfo)
  sockets : List (String × SocketInfo)
  deriving DecidableEq, Repr

/-- Where an emission is sent. -/
inductive EmitTarget where
  | sender (sid : String)
  | roomAll (rid : String)
  | roomOthers (rid : String) (sid : String)
  deriving DecidableEq, Repr

/-- An outbound emission, identified by target and event name. -/
structure Emission where
  target : EmitTarget
  event : String
  deriving DecidableEq, Repr

def getSocket (st : ServerState) (sid : String) : SocketInfo :=
  (mapGet st.sockets sid).getD { roomId := none, username := none, role := none }

/-- JS truthiness of an optional string field (`undefined` and `""` are falsy). -/
def truthy : Option String → Bool
  | none => false
  | some s => decide (s ≠ "")

/-- `create-room` handler (server.js lines 40-111). -/
def createRoom (st : ServerState) (sid roomId username : String) (now : Nat) :
    ServerState × List Emission :=
  if roomId = "" ∨ username = "" then
    (st, [⟨.sender sid, "error"⟩])
  else if mapHas st.rooms roomId then
    (st, [⟨.sender sid, "room-exists"⟩])
  else
    let newRoom : Room :=
      { id := roomId, host := sid, state := "lobby",
        participants := [(sid, ⟨sid, username, "host", true, now⟩)],
        drawings := [], backgroundImage := none, slides := [], currentSlide := 0,
        slideDrawings := [], settings := defaultSettings, createdAt := now }
    ({ rooms := mapSet st.rooms roomId newRoom,
       connectedUsers := mapSet st.connectedUsers sid ⟨roomId, username, "host"⟩,
       sockets := mapSet st.sockets sid ⟨some roomId, some username, some "host"⟩ },
     [⟨.sender sid, "room-created"⟩])

/-- `join-room` handler (server.js lines 114-172). -/
def joinRoom (st : ServerState) (sid roomId username : String) (now : Nat) :
    ServerState × List Emission :=
  match mapGet st.rooms roomId with
  | none => (st, [⟨.sender sid, "room-not-found"⟩])
  | some room =>
    if room.settings.maxParticipants ≤ room.participants.length then
      (st, [⟨.sender sid, "room-full"⟩])
    else
      let room2 := { room with
        participants := mapSet room.participants sid ⟨sid, username, "participant", false, now⟩ }
      ({ rooms := mapSet st.rooms roomId room2,
         connectedUsers := mapSet st.connectedUsers sid ⟨roomId, username, "participant"⟩,
         sockets := mapSet st.sockets sid ⟨some roomId, some username, some "participant"⟩ },
       [⟨.sender sid, "room-joined"⟩, ⟨.roomAll roomId, "lobby-updated"⟩])

/-- `toggle-ready` handler (server.js lines 175-190). -/
def toggleReady (st : ServerState) (sid : String) (readyVal : Bool) :
    ServerState × List Emission :=
  let sock := getSocket st sid
  if ¬ truthy sock.roomId ∨ sock.role ≠ some "participant" then (st, [])
  else
    let rid := sock.roomId.getD ""
    match mapGet st.rooms rid with
    | none => (st, [])
    | some room =>
      if mapHas room.participants sid then
        let room2 := { room with
          participants := mapUpdate room.participants sid (fun p => { p with ready := readyVal }) }
        ({ st with rooms := mapSet st.rooms rid room2 }, [⟨.roomAll rid, "lobby-updated"⟩])
      else (st, [])

/-- `start-session` handler (server.js lines 193-214); the delayed
`session-started` broadcast is modelled as a second emission. -/
def startSession (st : ServerState) (sid : String) : ServerState × List Emission :=
  let sock := getSocket st sid
  if ¬ truthy sock.roomId ∨ sock.role ≠ some "host" then (st, [])
  else
    let rid := sock.roomId.getD ""
    match mapGet st.rooms rid with
    | none => (st, [])
    | some room =>
      if room.state = "lobby" then
        let room2 := { room with state := "active" }
        ({ st with rooms := mapSet st.rooms rid room2 },
         [⟨.roomAll rid, "session-starting"⟩, ⟨.roomAll rid, "session-started"⟩])
      else (st, [])

/-- `drawing` handler (server.js lines 217-256). -/
def drawingStep (st : ServerState) (sid : String) (d : DrawPayload) (now : Nat) :
    ServerState × List Emission :=
  let sock := getSocket st sid
  if ¬ truthy sock.roomId then (st, [])
  else
    let rid := sock.roomId.getD ""
    match mapGet st.rooms rid with
    | none => (st, [])
    | some room =>
      if room.state ≠ "active" then (st, [])
      else
        match mapGet room.participants sid with
        | none => (st, [])
        | some participant =>
          if participant.role = "host" ∨ room.settings.participantsCanDraw then
            let rec0 : DrawingData :=
              ⟨d.dtype, d.slideIndex, d.payload, sid, sock.username.getD "",
               sock.role.getD "", now⟩
            let sd1 :=
              match d.slideIndex with
              | none => room.slideDrawings
              | some i =>
                let sd0 := if mapHas room.slideDrawings i then room.slideDrawings
                           else mapSet room.slideDrawings i []
                if d.dtype = "draw" then mapUpdate sd0 i (fun l => l ++ [rec0]) else sd0
            let dr1 := if d.dtype = "draw" then room.drawings ++ [rec0] else room.drawings
            let room2 := { room with slideDrawings := sd1, drawings := dr1 }
      ({ st with rooms := mapSet st.rooms rid room2 },
             [⟨.roomOthers rid sid, "drawing"⟩])
          else (st, [])

/-- `chat-message` handler (server.js lines 259-281); no state mutation. -/
def chatMessage (st : ServerState) (sid : String) : ServerState × List Emission :=
  let sock := getSocket st sid
  if ¬ truthy sock.roomId then (st, [])
  else
    let rid := sock.roomId.getD ""
    match mapGet st.rooms rid with
    | none => (st, [])
    | some room =>
      match mapGet room.participants sid with
      | none => (st, [])
      | some participant =>
        if participant.role = "host" ∨ room.settings.participantsCanChat then
          (st, [⟨.roomAll rid, "chat-message"⟩])
        else (st, [])

/-- `file-upload-started` handler (server.js lines 284-292). -/
def fileUploadStarted (st : ServerState) (sid : String) : ServerState × List Emission :=
  let sock := getSocket st sid
  if ¬ truthy sock.roomId then (st, [])
  else (st, [⟨.roomOthers (sock.roomId.getD "") sid, "file-upload-started"⟩])

/-- `background-image-set` handler (server.js lines 295-314): stores the image,
replaces the deck by the single image, resets the index; slide drawings are
left untouched by the source. -/
def backgroundImageSet (st : ServerState) (sid imageData : String) :
    ServerState × List Emission :=
  let sock := getSocket st sid
  if ¬ truthy sock.roomId then (st, [])
  else
    let rid := sock.roomId.getD ""
    match mapGet st.rooms rid with
    | none => (st, [])
    | some room =>
      let room2 := { room with
        backgroundImage := some imageData, slides := [imageData], currentSlide := 0 }
      ({ st with rooms := mapSet st.rooms rid room2 },
       [⟨.roomOthers rid sid, "background-image-set"⟩])

/-- `background-cleared` handler (server.js lines 317-334). -/
def backgroundCleared (st : ServerState) (sid : String) : ServerState × List Emission :=
  let sock := getSocket st sid
  if ¬ truthy sock.roomId then (st, [])
  else
    let rid := sock.roomId.getD ""
    match mapGet st.rooms rid with
    | none => (st, [])
    | some room =>
      let room2 := { room with
        backgroundImage := none, slides := [], currentSlide := 0, slideDrawings := [] }
      ({ st with rooms := mapSet st.rooms rid room2 },
       [⟨.roomOthers rid sid, "background-cleared"⟩])

/-- `file-shared` handler (server.js lines 337-354). -/
def fileShared (st : ServerState) (sid ftype fdata : String) :
    ServerState × List Emission :=
  let sock := getSocket st sid
  if ¬ truthy sock.roomId then (st, [])
  else
    let rid := sock.roomId.getD ""
    match mapGet st.rooms rid with
    | none => (st, [])
    | some room =>
      let room2 := if ftype = "image" then
          { room with backgroundImage := some fdata, slides := [fdata], currentSlide := 0 }
        else room
      ({ st with rooms := mapSet st.rooms rid room2 },
       [⟨.roomOthers rid sid, "file-shared"⟩])

/-- `presentation-shared` handler (server.js lines 357-376); `data.currentSlide || 0`
is `Option.getD 0` on naturals (undefined and 0 are the falsy cases). -/
def presentationShared (st : ServerState) (sid : String) (slides : List String)
    (cs : Option Nat) : ServerState × List Emission :=
  let sock := getSocket st sid
  if ¬ truthy sock.roomId then (st, [])
  else
    let rid := sock.roomId.getD ""
    match mapGet st.rooms rid with
    | none => (st, [])
    | some room =>
      let room2 := { room with slides := slides, currentSlide := cs.getD 0, slideDrawings := [] }
      ({ st with rooms := mapSet st.rooms rid room2 },
       [⟨.roomOthers rid sid, "presentation-shared"⟩])

/-- `slide-changed` handler (server.js lines 379-391). -/
def slideChanged (st : ServerState) (sid : String) (idx : Nat) :
    ServerState × List Emission :=
  let sock := getSocket st sid
  if ¬ truthy sock.roomId then (st, [])
  else
    let rid := sock.roomId.getD ""
    match mapGet st.rooms rid with
    | none => (st, [])
    | some room =>
      let room2 := { room with currentSlide := idx }
      ({ st with rooms := mapSet st.rooms rid room2 },
       [⟨.roomOthers rid sid, "slide-changed"⟩])

/-- `slide-drawings-cleared` handler (server.js lines 394-407). -/
def slideDrawingsCleared (st : ServerState) (sid : String) (idx : Nat) :
    ServerState × List Emission :=
  let sock := getSocket st sid
  if ¬ truthy sock.roomId then (st, [])
  else
    let rid := sock.roomId.getD ""
    match mapGet st.rooms rid with
    | none => (st, [])
    | some room =>
      let room2 := { room with slideDrawings := mapDelete room.slideDrawings idx }
      ({ st with rooms := mapSet st.rooms rid room2 },
       [⟨.roomOthers rid sid, "slide-drawings-cleared"⟩])

/-- `text-added` handler (server.js lines 410-437). -/
def textAdded (st : ServerState) (sid payload : String) (now : Nat) :
    ServerState × List Emission :=
  let sock := getSocket st sid
  if ¬ truthy sock.roomId then (st, [])
  else
    let rid := sock.roomId.getD ""
    match mapGet st.rooms rid with
    | none => (st, [])
    | some room =>
      match mapGet room.participants sid with
      | none => (st, [])
      | some participant =>
        if participant.role = "host" ∨ room.settings.participantsCanDraw then
          let rec0 : DrawingData :=
            ⟨"text", none, payload, sid, sock.username.getD "", sock.role.getD "", now⟩
          let room2 := { room with drawings := room.drawings ++ [rec0] }
      ({ st with rooms := mapSet st.rooms rid room2 },
           [⟨.roomOthers rid sid, "text-added"⟩])
        else (st, [])

/-- `clear-canvas` handler (server.js lines 440-456). -/
def clearCanvas (st : ServerState) (sid : String) : ServerState × List Emission :=
  let sock := getSocket st sid
  if ¬ truthy sock.roomId then (st, [])
  else
    let rid := sock.roomId.getD ""
    match mapGet st.rooms rid with
    | none => (st, [])
    | some room =>
      if sock.role = some "host" ∨ room.settings.hostCanClear = false then
        let room2 := { room with
          drawings := [], slideDrawings := mapDelete room.slideDrawings room.currentSlide }
        ({ st with rooms := mapSet st.rooms rid room2 },
         [⟨.roomAll rid, "clear-canvas"⟩])
      else (st, [])

/-- `toggle-participant-drawing` handler (server.js lines 459-473). -/
def toggleParticipantDrawing (st : ServerState) (sid : String) :
    ServerState × List Emission :=
  let sock := getSocket st sid
  if ¬ truthy sock.roomId ∨ sock.role ≠ some "host" then (st, [])
  else
    let rid := sock.roomId.getD ""
    match mapGet st.rooms rid with
    | none => (st, [])
    | some room =>
      let room2 := { room with settings :=
              { room.settings with participantsCanDraw := ¬ room.settings.participantsCanDraw } }
      ({ st with rooms := mapSet st.rooms rid room2 },
       [⟨.roomAll rid, "permissions-updated"⟩])

/-- `toggle-participant-chat` handler (server.js lines 475-489). -/
def toggleParticipantChat (st : ServerState) (sid : String) :
    ServerState × List Emission :=
  let sock := getSocket st sid
  if ¬ truthy sock.roomId ∨ sock.role ≠ some "host" then (st, [])
  else
    let rid := sock.roomId.getD ""
    match mapGet st.rooms rid with
    | none => (st, [])
    | some room =>
      let room2 := { room with settings :=
              { room.settings with participantsCanChat := ¬ room.settings.participantsCanChat } }
      ({ st with rooms := mapSet st.rooms rid room2 },
       [⟨.roomAll rid, "permissions-updated"⟩])

/-- `leaveRoom` (server.js lines 515-559), shared by `leave-room` and
`disconnect`.  The source looks the room up through `connectedUsers`, checks
host-ness on `socket.role`, and never clears the socket-attached fields. -/
def leaveRoomFn (st : ServerState) (sid : String) : ServerState × List Emission :=
  match mapGet st.connectedUsers sid with
  | none => (st, [])
  | some ui =>
    match mapGet st.rooms ui.roomId with
    | none => ({ st with connectedUsers := mapDelete st.connectedUsers sid }, [])
    | some room =>
      let room2 := { room with participants := mapDelete room.participants sid }
      if (getSocket st sid).role = some "host" then
        ({ st with rooms := mapDelete st.rooms ui.roomId,
                   connectedUsers := mapDelete st.connectedUsers sid },
         [⟨.roomAll ui.roomId, "room-ended"⟩])
      else
        let ems : List Emission := [⟨.roomOthers ui.roomId sid, "lobby-updated"⟩] ++
          (if room2.state = "active" then [⟨.roomOthers ui.roomId sid, "participant-left-session"⟩]
           else [⟨.roomOthers ui.roomId sid, "user-left"⟩])
        if room2.participants.length = 0 then
          ({ st with rooms := mapDelete st.rooms ui.roomId,
                     connectedUsers := mapDelete st.connectedUsers sid }, ems)
        else
          ({ st with rooms := mapSet st.rooms ui.roomId room2,
                     connectedUsers := mapDelete st.connectedUsers sid }, ems)

/-- `kick-participant` handler (server.js lines 491-502): the forced disconnect
of the target triggers the ordinary leave path. -/
def kickParticipant (st : ServerState) (sid target : String) :
    ServerState × List Emission :=
  let sock := getSocket st sid
  if ¬ truthy sock.roomId ∨ sock.role ≠ some "host" then (st, [])
  else
    match mapGet st.sockets target with
    | none => (st, [])
    | some ts =>
      if ts.roomId = sock.roomId then
        let res := leaveRoomFn st target
        (res.1, ⟨.sender target, "kicked"⟩ :: res.2)
      else (st, [])

/-- The idle-room reaper sweep (server.js lines 592-602). -/
def reapRooms (st : ServerState) (now : Nat) : ServerState :=
  { st with rooms := st.rooms.filter (fun p =>
      ! decide (86400000 < now - p.2.createdAt ∧ p.2.participants.length = 0)) }

/-- One inbound event, tagged with the sending connection. -/
inductive Event where
  | create (sid roomId username : String) (now : Nat)
  | join (sid roomId username : String) (now : Nat)
  | ready (sid : String) (r : Bool)
  | start (sid : String)
  | draw (sid : String) (d : DrawPayload) (now : Nat)
  | chat (sid : String)
  | uploadStarted (sid : String)
  | bgSet (sid imageData : String)
  | bgCleared (sid : String)
  | fileShare (sid ftype fdata : String)
  | presShare (sid : String) (slides : List String) (cs : Option Nat)
  | slideChange (sid : String) (idx : Nat)
  | slideClear (sid : String) (idx : Nat)
  | text (sid payload : String) (now : Nat)
  | canvasClear (sid : String)
  | toggleDraw (sid : String)
  | toggleChat (sid : String)
  | kick (sid target : String)
  | leave (sid : String)
  | disconnect (sid : String)
  | sweep (now : Nat)
  deriving DecidableEq, Repr

def step (st : ServerState) : Event → ServerState × List Emission
  | .create sid r u n => createRoom st sid r u n
  | .join sid r u n => joinRoom st sid r u n
  | .ready sid b => toggleReady st sid b
  | .start sid => startSession st sid
  | .draw sid d n => drawingStep st sid d n
  | .chat sid => chatMessage st sid
  | .uploadStarted sid => fileUploadStarted st sid
  | .bgSet sid img => backgroundImageSet st sid img
  | .bgCleared sid => backgroundCleared st sid
  | .fileShare sid t dta => fileShared st sid t dta
  | .presShare sid sl cs => presentationShared st sid sl cs
  | .slideChange sid i => slideChanged st sid i
  | .slideClear sid i => slideDrawingsCleared st sid i
  | .text sid p n => textAdded st sid p n
  | .canvasClear sid => clearCanvas st sid
  | .toggleDraw sid => toggleParticipantDrawing st sid
  | .toggleChat sid => toggleParticipantChat st sid
  | .kick sid t => kickParticipant st sid t
  | .leave sid => leaveRoomFn st sid
  | .disconnect sid => leaveRoomFn st sid
  | .sweep n => (reapRooms st n, [])

def initState : ServerState := { rooms := [], connectedUsers := [], sockets := [] }

/-- Run a sequence of events from the empty server state. -/
def run (es : List Event) : ServerState :=
  es.foldl (fun s e => (step s e).1) initState

/-- Lookup of a room in a state. -/
def roomAt (st : ServerState) (rid : String) : Option Room :=
  mapGet st.rooms rid

/-- Number of entries of a participant directory holding role host. -/
def hostsIn (l : List (String × Participant)) : Nat :=
  (l.filter (fun q => decide (q.2.role = "host"))).length

/-- Number of directory entries holding role host. -/
def hostCount (r : Room) : Nat :=
  hostsIn r.participants

/-- The spec's deck/index invariant: the current slide index is a valid index
into the slide deck, or 0 when the deck is empty. -/
def slideInvariant (r : Room) : Bool :=
  if r.slides.length = 0 then decide (r.currentSlide = 0)
  else decide (r.currentSlide < r.slides.length)

/-- The deck/index invariant read off a state at a room id (vacuous when the
room does not exist). -/
def slideOk (st : ServerState) (rid : String) : Bool :=
  match roomAt st rid with
  | none => true
  | some r => slideInvariant r

/-- All per-slide drawing logs of a room are empty. -/
def slideLogsEmpty (r : Room) : Bool :=
  r.slideDrawings.all (fun q => q.2.isEmpty)

/-- Claim C1's property read off a state at a room id: current slide 0 and all
per-slide drawing logs empty (vacuous when the room does not exist). -/
def freshDeck (st : ServerState) (rid : String) : Bool :=
  match roomAt st rid with
  | none => true
  | some r => decide (r.currentSlide = 0) && slideLogsEmpty r

/-- Keys of the room registry and of every participant directory are
duplicate-free, as they are for real JS Maps. -/
def KeysOk (st : ServerState) : Prop :=
  (st.rooms.map Prod.fst).Nodup ∧ ∀ p ∈ st.rooms, (p.2.participants.map Prod.fst).Nodup

/-- Every room in the registry holds at most one participant with role host. -/
def HostAtMostOne (st : ServerState) : Prop :=
  ∀ p ∈ st.rooms, hostCount p.2 ≤ 1

/-- Every directory entry with role host has its readiness flag set. -/
def HostReady (st : ServerState) : Prop :=
  ∀ p ∈ st.rooms, ∀ q ∈ p.2.participants, q.2.role = "host" → q.2.ready = true

/-- A socket bound as participant to a room never owns a host-role entry there. -/
def BindingConsistent (st : ServerState) : Prop :=
  ∀ sid rid, (getSocket st sid).roomId = some rid →
    (getSocket st sid).role = some "participant" →
    ∀ p ∈ st.rooms, p.1 = rid → ∀ q ∈ p.2.participants, q.1 = sid →
      q.2.role = "participant"

/-- The inductive invariant carried through every event handler. -/
def Good (st : ServerState) : Prop :=
  KeysOk st ∧ HostAtMostOne st ∧ HostReady st ∧ BindingConsistent st

/-- Trace refuting C1: a drawn stroke on slide 0 survives `background-image-set`. -/
def c1Trace : List Event :=
  [.create "A" "R" "alice" 0, .presShare "A" ["s1", "s2"] none,
   .start "A", .draw "A" ⟨"draw", some 0, "p1"⟩ 5, .bgSet "A" "img"]

/-- Trace refuting C2: `slide-changed` writes an unchecked index into an empty deck. -/
def c2Trace : List Event := [.create "A" "R" "alice" 0, .slideChange "A" 5]

/-- Trace refuting C4: the host re-joins its own room, demoting its directory
entry to role participant, leaving a live room with zero hosts. -/
def c4Trace : List Event := [.create "A" "R" "alice" 0, .join "A" "R" "alice2" 1]

/-- Trace producing a lobby room with a bound sender ("B") that is no longer in
the participant directory. -/
def c8Trace : List Event := [.create "A" "R" "alice" 0, .join "B" "R" "bob" 1, .leave "B"]

/-- Trace producing an active one-host room. -/
def activeTrace : List Event := [.create "A" "R" "alice" 0, .start "A"]

/-- A room whose participant count has reached the configured cap. -/
def fullRoom : Room :=
  { id := "F", host := "H", state := "lobby",
    participants := [("H", ⟨"H", "h", "host", true, 0⟩)],
    drawings := [], backgroundImage := none, slides := [], currentSlide := 0,
    slideDrawings := [], settings := { defaultSettings with maxParticipants := 1 },
    createdAt := 0 }

/-- A registry holding only the full room. -/
def fullState : ServerState :=
  { rooms := [("F", fullRoom)], connectedUsers := [], sockets := [] }

/-- Trace creating one room. -/
def createTrace : List Event := [.create "A" "R" "alice" 0]

/-- The room produced by `createTrace` (and by `c8Trace` after the join/leave). -/
def roomR : Room :=
  { id := "R", host := "A", state := "lobby",
    participants := [("A", ⟨"A", "alice", "host", true, 0⟩)],
    drawings := [], backgroundImage := none, slides := [], currentSlide := 0,
    slideDrawings := [], settings := defaultSettings, createdAt := 0 }

/-- The room produced by `activeTrace`. -/
def roomRActive : Room := { roomR with state := "active" }

/-! ### Lemmas about the JS-Map model -/

theorem mapGet_cons {α β : Type} [DecidableEq α] (p : α × β) (rest : List (α × β)) (k : α) :
    mapGet (p :: rest) k = if p.1 = k then some p.2 else mapGet rest k := by
  by_cases h : p.1 = k
  · simp [mapGet, List.find?, h]
  · simp [mapGet, List.find?, h]

theorem mapHas_cons {α β : Type} [DecidableEq α] (p : α × β) (rest : List (α × β)) (k : α) :
    mapHas (p :: rest) k = (decide (p.1 = k) || mapHas rest k) := by
  simp [mapHas]

theorem mapGet_nil {α β : Type} [DecidableEq α] (k : α) :
    mapGet ([] : List (α × β)) k = none := rfl

theorem mapGet_mapSet_self {α β : Type} [DecidableEq α] (m : List (α × β)) (k : α) (v : β) :
    mapGet (mapSet m k v) k = some v := by
  induction m with
  | nil => simp [mapSet, mapGet_cons]
  | cons p rest ih =>
    by_cases h : p.1 = k
    · simp [mapSet, h, mapGet_cons]
    · simp [mapSet, h, mapGet_cons, ih]

theorem mapGet_mapSet_ne {α β : Type} [DecidableEq α] (m : List (α × β)) (k k' : α) (v : β)
    (h : k' ≠ k) : mapGet (mapSet m k v) k' = mapGet m k' := by
  induction m with
  | nil => simp [mapSet, mapGet_cons, Ne.symm h]
  | cons p rest ih =>
    by_cases hp : p.1 = k
    · subst hp
      simp [mapSet, mapGet_cons, Ne.symm h]
    · simp [mapSet, hp, mapGet_cons, ih]

theorem mapGet_mem {α β : Type} [DecidableEq α] {m : List (α × β)} {k : α} {v : β}
    (h : mapGet m k = some v) : (k, v) ∈ m := by
  induction m with
  | nil => simp [mapGet] at h
  | cons p rest ih =>
    obtain ⟨a, b⟩ := p
    rw [mapGet_cons] at h
    by_cases hp : a = k
    · subst hp
      rw [if_pos rfl] at h
      injection h with h2
      subst h2
      exact List.mem_cons_self _ _
    · rw [if_neg hp] at h
      exact List.mem_cons_of_mem _ (ih h)

theorem mem_mapSet {α β : Type} [DecidableEq α] {m : List (α × β)} {k : α} {v : β}
    {p : α × β} (h : p ∈ mapSet m k v) : p = (k, v) ∨ p ∈ m := by
  induction m with
  | nil => simpa [mapSet] using h
  | cons q rest ih =>
    by_cases hq : q.1 = k
    · rw [mapSet, if_pos hq] at h
      rcases List.mem_cons.mp h with h | h
      · exact Or.inl h
      · exact Or.inr (List.mem_cons_of_mem _ h)
    · rw [mapSet, if_neg hq] at h
      rcases List.mem_cons.mp h with h | h
      · exact Or.inr (h ▸ List.mem_cons_self _ _)
      · rcases ih h with h | h
        · exact Or.inl h
        · exact Or.inr (List.mem_cons_of_mem _ h)

theorem mem_mapDelete {α β : Type} [DecidableEq α] {m : List (α × β)} {k : α}
    {p : α × β} (h : p ∈ mapDelete m k) : p ∈ m :=
  List.mem_of_mem_filter h

theorem mapDelete_cons {α β : Type} [DecidableEq α] (p : α × β) (rest : List (α × β))
    (k : α) : mapDelete (p :: rest) k =
      if p.1 = k then mapDelete rest k else p :: mapDelete rest k := by
  by_cases hp : p.1 = k <;> simp [mapDelete, List.filter_cons, hp]

theorem mapUpdate_cons {α β : Type} [DecidableEq α] (p : α × β) (rest : List (α × β))
    (k : α) (f : β → β) : mapUpdate (p :: rest) k f =
      (if p.1 = k then (p.1, f p.2) else p) :: mapUpdate rest k f := by
  simp [mapUpdate]

theorem mapGet_mapDelete_self {α β : Type} [DecidableEq α] (m : List (α × β)) (k : α) :
    mapGet (mapDelete m k) k = none := by
  induction m with
  | nil => rfl
  | cons p rest ih =>
    rw [mapDelete_cons]
    by_cases hp : p.1 = k
    · rw [if_pos hp]; exact ih
    · rw [if_neg hp, mapGet_cons, if_neg hp]; exact ih

theorem mapGet_mapDelete_ne {α β : Type} [DecidableEq α] (m : List (α × β)) (k k' : α)
    (h : k' ≠ k) : mapGet (mapDelete m k) k' = mapGet m k' := by
  induction m with
  | nil => rfl
  | cons p rest ih =>
    rw [mapDelete_cons]
    by_cases hp : p.1 = k
    · have hp' : ¬ p.1 = k' := by rw [hp]; exact Ne.symm h
      rw [if_pos hp, ih, mapGet_cons, if_neg hp']
    · rw [if_neg hp, mapGet_cons, mapGet_cons, ih]

theorem mem_mapUpdate {α β : Type} [DecidableEq α] {m : List (α × β)} {k : α} {f : β → β}
    {p : α × β} (h : p ∈ mapUpdate m k f) :
    ∃ q ∈ m, p = if q.1 = k then (q.1, f q.2) else q := by
  rcases List.mem_map.mp h with ⟨q, hq, he⟩
  exact ⟨q, hq, he.symm⟩

theorem mapGet_mapUpdate_self {α β : Type} [DecidableEq α] (m : List (α × β)) (k : α)
    (f : β → β) : mapGet (mapUpdate m k f) k = (mapGet m k).map f := by
  induction m with
  | nil => rfl
  | cons p rest ih =>
    rw [mapUpdate_cons]
    by_cases hp : p.1 = k
    · rw [if_pos hp, mapGet_cons, mapGet_cons]
      simp [hp]
    · rw [if_neg hp, mapGet_cons, mapGet_cons, if_neg hp, if_neg hp]
      exact ih

theorem mapGet_mapUpdate_ne {α β : Type} [DecidableEq α] (m : List (α × β)) (k k' : α)
    (f : β → β) (h : k' ≠ k) : mapGet (mapUpdate m k f) k' = mapGet m k' := by
  induction m with
  | nil => rfl
  | cons p rest ih =>
    rw [mapUpdate_cons]
    by_cases hp : p.1 = k
    · have hp' : ¬ p.1 = k' := by rw [hp]; exact Ne.symm h
      rw [if_pos hp, mapGet_cons, mapGet_cons]
      simp [hp', ih]
    · rw [if_neg hp, mapGet_cons, mapGet_cons, ih]

theorem mapHas_false_get_none {α β : Type} [DecidableEq α] {m : List (α × β)} {k : α}
    (h : mapHas m k = false) : mapGet m k = none := by
  induction m with
  | nil => rfl
  | cons p rest ih =>
    rw [mapHas_cons, Bool.or_eq_false_iff] at h
    rw [mapGet_cons, if_neg (by simpa using h.1)]
    exact ih h.2

theorem mapHas_true_get_some {α β : Type} [DecidableEq α] {m : List (α × β)} {k : α}
    (h : mapHas m k = true) : ∃ v, mapGet m k = some v := by
  induction m with
  | nil => simp [mapHas] at h
  | cons p rest ih =>
    rw [mapHas_cons] at h
    by_cases hp : p.1 = k
    · exact ⟨p.2, by rw [mapGet_cons, if_pos hp]⟩
    · rw [mapGet_cons, if_neg hp]
      exact ih (by simpa [hp] using h)

theorem keys_mapSet_subset {α β : Type} [DecidableEq α] {m : List (α × β)} {k : α} {v : β}
    {a : α} (h : a ∈ (mapSet m k v).map Prod.fst) : a = k ∨ a ∈ m.map Prod.fst := by
  rcases List.mem_map.mp h with ⟨p, hp, he⟩
  rcases mem_mapSet hp with h1 | h1
  · exact Or.inl (by rw [← he, h1])
  · exact Or.inr (he ▸ List.mem_map_of_mem _ h1)

theorem keys_nodup_mapSet {α β : Type} [DecidableEq α] {m : List (α × β)} (k : α) (v : β)
    (h : (m.map Prod.fst).Nodup) : ((mapSet m k v).map Prod.fst).Nodup := by
  induction m with
  | nil => simp [mapSet]
  | cons p rest ih =>
    rw [List.map_cons, List.nodup_cons] at h
    by_cases hp : p.1 = k
    · rw [mapSet, if_pos hp, List.map_cons, List.nodup_cons]
      exact ⟨hp ▸ h.1, h.2⟩
    · rw [mapSet, if_neg hp, List.map_cons, List.nodup_cons]
      refine ⟨fun hm => ?_, ih h.2⟩
      rcases keys_mapSet_subset hm with h1 | h1
      · exact hp h1
      · exact h.1 h1

theorem keys_nodup_mapDelete {α β : Type} [DecidableEq α] {m : List (α × β)} (k : α)
    (h : (m.map Prod.fst).Nodup) : ((mapDelete m k).map Prod.fst).Nodup :=
  ((List.filter_sublist m).map Prod.fst).nodup h

theorem keys_mapUpdate {α β : Type} [DecidableEq α] (m : List (α × β)) (k : α) (f : β → β) :
    (mapUpdate m k f).map Prod.fst = m.map Prod.fst := by
  induction m with
  | nil => rfl
  | cons p rest ih =>
    rw [mapUpdate_cons, List.map_cons, List.map_cons, ih]
    by_cases hp : p.1 = k <;> simp [hp]

theorem mem_mapSet_nodup {α β : Type} [DecidableEq α] {m : List (α × β)} {k : α} {v : β}
    {p : α × β} (hnd : (m.map Prod.fst).Nodup) (h : p ∈ mapSet m k v) :
    p = (k, v) ∨ (p ∈ m ∧ p.1 ≠ k) := by
  induction m with
  | nil => simpa [mapSet] using h
  | cons q rest ih =>
    rw [List.map_cons, List.nodup_cons] at hnd
    by_cases hq : q.1 = k
    · rw [mapSet, if_pos hq] at h
      rcases List.mem_cons.mp h with h | h
      · exact Or.inl h
      · refine Or.inr ⟨List.mem_cons_of_mem _ h, fun hk => ?_⟩
        exact hnd.1 (hq ▸ hk ▸ List.mem_map_of_mem _ h)
    · rw [mapSet, if_neg hq] at h
      rcases List.mem_cons.mp h with h | h
      · exact Or.inr ⟨h ▸ List.mem_cons_self _ _, h ▸ hq⟩
      · rcases ih hnd.2 h with h1 | h1
        · exact Or.inl h1
        · exact Or.inr ⟨List.mem_cons_of_mem _ h1.1, h1.2⟩

theorem hostsIn_mapSet_le {m : List (String × Participant)} {k : String} {v : Participant}
    (hv : v.role ≠ "host") : hostsIn (mapSet m k v) ≤ hostsIn m := by
  induction m with
  | nil => simp [mapSet, hostsIn, List.filter_cons, hv]
  | cons p rest ih =>
    by_cases hp : p.1 = k
    · rw [mapSet, if_pos hp]
      simp only [hostsIn, List.filter_cons, hv, decide_eq_true_eq]
      rw [if_neg (by simp [hv])]
      by_cases hr : p.2.role = "host"
      · rw [if_pos (by simpa using hr)]
        simp
      · rw [if_neg (by simpa using hr)]
    · rw [mapSet, if_neg hp]
      simp only [hostsIn, List.filter_cons] at ih ⊢
      by_cases hr : p.2.role = "host"
      · rw [if_pos (by simpa using hr), if_pos (by simpa using hr)]
        simpa using ih
      · rw [if_neg (by simpa using hr), if_neg (by simpa using hr)]
        exact ih

theorem hostsIn_mapDelete_le (m : List (String × Participant)) (k : String) :
    hostsIn (mapDelete m k) ≤ hostsIn m :=
  (((List.filter_sublist m).filter _).length_le).trans (by simp [hostsIn])

theorem hostsIn_mapUpdate_eq (m : List (String × Participant)) (k : String)
    (f : Participant → Participant) (hf : ∀ b, (f b).role = b.role) :
    hostsIn (mapUpdate m k f) = hostsIn m := by
  induction m with
  | nil => rfl
  | cons p rest ih =>
    rw [mapUpdate_cons]
    by_cases hp : p.1 = k
    · rw [if_pos hp]
      simp only [hostsIn, List.filter_cons, hf]
      by_cases hr : p.2.role = "host"
      · rw [if_pos (by simpa using hr), if_pos (by simpa using hr)]
        simpa [hostsIn] using ih
      · rw [if_neg (by simpa using hr), if_neg (by simpa using hr)]
        exact ih
    · rw [if_neg hp]
      simp only [hostsIn, List.filter_cons]
      by_cases hr : p.2.role = "host"
      · rw [if_pos (by simpa using hr), if_pos (by simpa using hr)]
        simpa [hostsIn] using ih
      · rw [if_neg (by simpa using hr), if_neg (by simpa using hr)]
        exact ih

/-! ### Preservation of the inductive invariant -/

theorem getSocket_state (rooms : List (String × Room)) (cu : List (String × UserInfo))
    (socks : List (String × SocketInfo)) (s : String) :
    getSocket { rooms := rooms, connectedUsers := cu, sockets := socks } s =
      (mapGet socks s).getD ⟨none, none, none⟩ := rfl

theorem truthy_some {o : Option String} (h : truthy o = true) : o = some (o.getD "") := by
  cases o with
  | none => simp [truthy] at h
  | some s => rfl

theorem truthy_getD_ne {o : Option String} (h : truthy o = true) : o.getD "" ≠ "" := by
  cases o with
  | none => simp [truthy] at h
  | some s => simpa [truthy] using h

theorem good_cu {st : ServerState} (cu : List (String × UserInfo)) (hg : Good st) :
    Good { st with connectedUsers := cu } := hg

theorem good_set_room {st : ServerState} {rid : String} {room room2 : Room}
    (hg : Good st) (hget : mapGet st.rooms rid = some room)
    (hparts : room2.participants = room.participants) :
    Good { st with rooms := mapSet st.rooms rid room2 } := by
  obtain ⟨⟨hk1, hk2⟩, h1, h2, h3⟩ := hg
  have hmem : (rid, room) ∈ st.rooms := mapGet_mem hget
  refine ⟨⟨keys_nodup_mapSet _ _ hk1, ?_⟩, ?_, ?_, ?_⟩
  · intro p hp
    rcases mem_mapSet hp with h | h
    · rw [h]
      simpa [hparts] using hk2 _ hmem
    · exact hk2 p h
  · intro p hp
    rcases mem_mapSet hp with h | h
    · rw [h]
      show hostCount room2 ≤ 1
      rw [hostCount, hparts]
      exact h1 _ hmem
    · exact h1 p h
  · intro p hp q hq hrole
    rcases mem_mapSet hp with h | h
    · rw [h] at hq
      exact h2 _ hmem q (by simpa [hparts] using hq) hrole
    · exact h2 p h q hq hrole
  · intro sid rid2 hb hrole p hp hpr q hq hqs
    rcases mem_mapSet hp with h | h
    · rw [h] at hpr hq
      exact h3 sid rid2 hb hrole (rid, room) hmem hpr q (by simpa [hparts] using hq) hqs
    · exact h3 sid rid2 hb hrole p h hpr q hq hqs

theorem good_set_room_delete {st : ServerState} {rid : String} {room : Room} (sid : String)
    (hg : Good st) (hget : mapGet st.rooms rid = some room) :
    Good { st with
      rooms := mapSet st.rooms rid { room with participants := mapDelete room.participants sid } } := by
  obtain ⟨⟨hk1, hk2⟩, h1, h2, h3⟩ := hg
  have hmem : (rid, room) ∈ st.rooms := mapGet_mem hget
  refine ⟨⟨keys_nodup_mapSet _ _ hk1, ?_⟩, ?_, ?_, ?_⟩
  · intro p hp
    rcases mem_mapSet hp with h | h
    · rw [h]
      exact keys_nodup_mapDelete sid (hk2 _ hmem)
    · exact hk2 p h
  · intro p hp
    rcases mem_mapSet hp with h | h
    · rw [h]
      exact le_trans (hostsIn_mapDelete_le room.participants sid) (h1 _ hmem)
    · exact h1 p h
  · intro p hp q hq hrole
    rcases mem_mapSet hp with h | h
    · rw [h] at hq
      exact h2 _ hmem q (mem_mapDelete hq) hrole
    · exact h2 p h q hq hrole
  · intro s rid2 hb hrole p hp hpr q hq hqs
    rcases mem_mapSet hp with h | h
    · rw [h] at hpr hq
      exact h3 s rid2 hb hrole (rid, room) hmem hpr q (mem_mapDelete hq) hqs
    · exact h3 s rid2 hb hrole p h hpr q hq hqs

theorem good_rooms_delete {st : ServerState} (rid : String)
    (cu : List (String × UserInfo)) (hg : Good st) :
    Good { st with rooms := mapDelete st.rooms rid, connectedUsers := cu } := by
  obtain ⟨⟨hk1, hk2⟩, h1, h2, h3⟩ := hg
  refine ⟨⟨keys_nodup_mapDelete _ hk1, ?_⟩, ?_, ?_, ?_⟩
  · intro p hp
    exact hk2 p (mem_mapDelete hp)
  · intro p hp
    exact h1 p (mem_mapDelete hp)
  · intro p hp q hq hrole
    exact h2 p (mem_mapDelete hp) q hq hrole
  · intro s rid2 hb hrole p hp hpr q hq hqs
    exact h3 s rid2 hb hrole p (mem_mapDelete hp) hpr q hq hqs

theorem good_reap (st : ServerState) (now : Nat) (hg : Good st) :
    Good (reapRooms st now) := by
  obtain ⟨⟨hk1, hk2⟩, h1, h2, h3⟩ := hg
  refine ⟨⟨((List.filter_sublist st.rooms).map Prod.fst).nodup hk1, ?_⟩, ?_, ?_, ?_⟩
  · intro p hp
    exact hk2 p (List.mem_of_mem_filter hp)
  · intro p hp
    exact h1 p (List.mem_of_mem_filter hp)
  · intro p hp q hq hrole
    exact h2 p (List.mem_of_mem_filter hp) q hq hrole
  · intro s rid2 hb hrole p hp hpr q hq hqs
    exact h3 s rid2 hb hrole p (List.mem_of_mem_filter hp) hpr q hq hqs

theorem good_createRoom (st : ServerState) (sid roomId username : String) (now : Nat)
    (hg : Good st) : Good (createRoom st sid roomId username now).1 := by
  rw [createRoom]
  split
  · exact hg
  · split
    · exact hg
    · dsimp only
      obtain ⟨⟨hk1, hk2⟩, h1, h2, h3⟩ := hg
      refine ⟨⟨keys_nodup_mapSet _ _ hk1, ?_⟩, ?_, ?_, ?_⟩
      · intro p hp
        rcases mem_mapSet hp with h | h
        · rw [h]
          simp
        · exact hk2 p h
      · intro p hp
        rcases mem_mapSet hp with h | h
        · rw [h]
          simp [hostCount, hostsIn]
        · exact h1 p h
      · intro p hp q hq hrole
        rcases mem_mapSet hp with h | h
        · rw [h] at hq
          rcases List.mem_singleton.mp hq with rfl
          rfl
        · exact h2 p h q hq hrole
      · intro s rid2 hb hrole p hp hpr q hq hqs
        rw [getSocket_state] at hb hrole
        by_cases hs : s = sid
        · subst hs
          rw [mapGet_mapSet_self] at hrole
          simp at hrole
        · rw [mapGet_mapSet_ne _ _ _ _ hs] at hb hrole
          rcases mem_mapSet hp with h | h
          · rw [h] at hq
            rcases List.mem_singleton.mp hq with rfl
            exact absurd hqs.symm hs
          · exact h3 s rid2 hb hrole p h hpr q hq hqs

theorem good_joinRoom (st : ServerState) (sid roomId username : String) (now : Nat)
    (hg : Good st) : Good (joinRoom st sid roomId username now).1 := by
  rw [joinRoom]
  split
  · exact hg
  · rename_i room heq
    split
    · exact hg
    · dsimp only
      obtain ⟨⟨hk1, hk2⟩, h1, h2, h3⟩ := hg
      have hmem : (roomId, room) ∈ st.rooms := mapGet_mem heq
      refine ⟨⟨keys_nodup_mapSet _ _ hk1, ?_⟩, ?_, ?_, ?_⟩
      · intro p hp
        rcases mem_mapSet hp with h | h
        · rw [h]
          exact keys_nodup_mapSet _ _ (hk2 _ hmem)
        · exact hk2 p h
      · intro p hp
        rcases mem_mapSet hp with h | h
        · rw [h]
          exact le_trans (hostsIn_mapSet_le (by simp)) (h1 _ hmem)
        · exact h1 p h
      · intro p hp q hq hrole
        rcases mem_mapSet hp with h | h
        · rw [h] at hq
          rcases mem_mapSet hq with h4 | h4
          · rw [h4] at hrole
            exact absurd hrole (by simp)
          · exact h2 _ hmem q h4 hrole
        · exact h2 p h q hq hrole
      · intro s rid2 hb hrole p hp hpr q hq hqs
        rw [getSocket_state] at hb hrole
        by_cases hs : s = sid
        · subst hs
          rw [mapGet_mapSet_self] at hb
          simp only [Option.getD_some] at hb
          have hr2 : rid2 = roomId := by
            injection hb with hbb
            exact hbb.symm
          subst hr2
          rcases mem_mapSet_nodup hk1 hp with h | h
          · rw [h] at hq
            rcases mem_mapSet_nodup (hk2 _ hmem) hq with h4 | h4
            · rw [h4]
            · exact absurd hqs h4.2
          · exact absurd hpr h.2
        · rw [mapGet_mapSet_ne _ _ _ _ hs] at hb hrole
          rcases mem_mapSet hp with h | h
          · rw [h] at hpr hq
            rcases mem_mapSet hq with h4 | h4
            · rw [h4] at hqs
              exact absurd hqs.symm hs
            · exact h3 s rid2 hb hrole (roomId, room) hmem hpr q h4 hqs
          · exact h3 s rid2 hb hrole p h hpr q hq hqs

theorem good_toggleReady (st : ServerState) (sid : String) (b : Bool) (hg : Good st) :
    Good (toggleReady st sid b).1 := by
  rw [toggleReady]
  split
  · exact hg
  · rename_i hguard
    dsimp only
    split
    · exact hg
    · rename_i room heq
      split
      · rename_i hhas
        obtain ⟨⟨hk1, hk2⟩, h1, h2, h3⟩ := hg
        have hmem : ((getSocket st sid).roomId.getD "", room) ∈ st.rooms := mapGet_mem heq
        have htr : truthy (getSocket st sid).roomId = true := by
          by_contra hc
          exact hguard (Or.inl (by simpa using hc))
        have hrl : (getSocket st sid).role = some "participant" := by
          by_contra hc
          exact hguard (Or.inr hc)
        have hbnd : (getSocket st sid).roomId = some ((getSocket st sid).roomId.getD "") :=
          truthy_some htr
        refine ⟨⟨keys_nodup_mapSet _ _ hk1, ?_⟩, ?_, ?_, ?_⟩
        · intro p hp
          rcases mem_mapSet hp with h | h
          · rw [h]
            show ((mapUpdate room.participants sid
              (fun p => { p with ready := b })).map Prod.fst).Nodup
            rw [keys_mapUpdate]
            exact hk2 _ hmem
          · exact hk2 p h
        · intro p hp
          rcases mem_mapSet hp with h | h
          · rw [h]
            show hostsIn (mapUpdate room.participants sid (fun p => { p with ready := b })) ≤ 1
            rw [hostsIn_mapUpdate_eq room.participants sid
              (fun p => { p with ready := b }) (fun q => rfl)]
            exact h1 _ hmem
          · exact h1 p h
        · intro p hp q hq hrole
          rcases mem_mapSet hp with h | h
          · rw [h] at hq
            have hq2 : q ∈ mapUpdate room.participants sid
                (fun p => { p with ready := b }) := hq
            rcases mem_mapUpdate hq2 with ⟨orig, horig, hqe⟩
            by_cases ho : orig.1 = sid
            · have hpart : orig.2.role = "participant" :=
                h3 sid _ hbnd hrl _ hmem rfl orig horig ho
              rw [hqe, if_pos ho] at hrole
              exact absurd (hpart ▸ hrole) (by simp)
            · rw [hqe, if_neg ho] at hrole ⊢
              exact h2 _ hmem orig horig hrole
          · exact h2 p h q hq hrole
        · intro s rid2 hb hrole p hp hpr q hq hqs
          rcases mem_mapSet hp with h | h
          · rw [h] at hpr hq
            have hq2 : q ∈ mapUpdate room.participants sid
                (fun p => { p with ready := b }) := hq
            rcases mem_mapUpdate hq2 with ⟨orig, horig, hqe⟩
            by_cases ho : orig.1 = sid
            · have hpart : orig.2.role = "participant" :=
                h3 sid _ hbnd hrl _ hmem rfl orig horig ho
              rw [hqe, if_pos ho]
              exact hpart
            · rw [hqe, if_neg ho] at hqs ⊢
              exact h3 s rid2 hb hrole _ hmem hpr orig horig hqs
          · exact h3 s rid2 hb hrole p h hpr q hq hqs
      · exact hg

theorem good_startSession (st : ServerState) (sid : String) (hg : Good st) :
    Good (startSession st sid).1 := by
  rw [startSession]
  split
  · exact hg
  · dsimp only
    split
    · exact hg
    · rename_i room heq
      split
      · exact good_set_room hg heq rfl
      · exact hg

theorem good_drawingStep (st : ServerState) (sid : String) (d : DrawPayload) (now : Nat)
    (hg : Good st) : Good (drawingStep st sid d now).1 := by
  rw [drawingStep]
  split
  · exact hg
  · dsimp only
    split
    · exact hg
    · rename_i room heq
      split
      · exact hg
      · split
        · exact hg
        · split
          · exact good_set_room hg heq rfl
          · exact hg

theorem good_chatMessage (st : ServerState) (sid : String) (hg : Good st) :
    Good (chatMessage st sid).1 := by
  rw [chatMessage]
  split
  · exact hg
  · dsimp only
    split
    · exact hg
    · split
      · exact hg
      · split
        · exact hg
        · exact hg

theorem good_fileUploadStarted (st : ServerState) (sid : String) (hg : Good st) :
    Good (fileUploadStarted st sid).1 := by
  rw [fileUploadStarted]
  split
  · exact hg
  · exact hg

theorem good_backgroundImageSet (st : ServerState) (sid img : String) (hg : Good st) :
    Good (backgroundImageSet st sid img).1 := by
  rw [backgroundImageSet]
  split
  · exact hg
  · dsimp only
    split
    · exact hg
    · rename_i room heq
      exact good_set_room hg heq rfl

theorem good_backgroundCleared (st : ServerState) (sid : String) (hg : Good st) :
    Good (backgroundCleared st sid).1 := by
  rw [backgroundCleared]
  split
  · exact hg
  · dsimp only
    split
    · exact hg
    · rename_i room heq
      exact good_set_room hg heq rfl

theorem good_fileShared (st : ServerState) (sid ftype fdata : String) (hg : Good st) :
    Good (fileShared st sid ftype fdata).1 := by
  rw [fileShared]
  split
  · exact hg
  · dsimp only
    split
    · exact hg
    · rename_i room heq
      exact good_set_room hg heq (by by_cases hf : ftype = "image" <;> simp [hf])

theorem good_presentationShared (st : ServerState) (sid : String) (slides : List String)
    (cs : Option Nat) (hg : Good st) : Good (presentationShared st sid slides cs).1 := by
  rw [presentationShared]
  split
  · exact hg
  · dsimp only
    split
    · exact hg
    · rename_i room heq
      exact good_set_room hg heq rfl

theorem good_slideChanged (st : ServerState) (sid : String) (idx : Nat) (hg : Good st) :
    Good (slideChanged st sid idx).1 := by
  rw [slideChanged]
  split
  · exact hg
  · dsimp only
    split
    · exact hg
    · rename_i room heq
      exact good_set_room hg heq rfl

theorem good_slideDrawingsCleared (st : ServerState) (sid : String) (idx : Nat)
    (hg : Good st) : Good (slideDrawingsCleared st sid idx).1 := by
  rw [slideDrawingsCleared]
  split
  · exact hg
  · dsimp only
    split
    · exact hg
    · rename_i room heq
      exact good_set_room hg heq rfl

theorem good_textAdded (st : ServerState) (sid payload : String) (now : Nat)
    (hg : Good st) : Good (textAdded st sid payload now).1 := by
  rw [textAdded]
  split
  · exact hg
  · dsimp only
    split
    · exact hg
    · rename_i room heq
      split
      · exact hg
      · split
        · exact good_set_room hg heq rfl
        · exact hg

theorem good_clearCanvas (st : ServerState) (sid : String) (hg : Good st) :
    Good (clearCanvas st sid).1 := by
  rw [clearCanvas]
  split
  · exact hg
  · dsimp only
    split
    · exact hg
    · rename_i room heq
      split
      · exact good_set_room hg heq rfl
      · exact hg

theorem good_toggleParticipantDrawing (st : ServerState) (sid : String) (hg : Good st) :
    Good (toggleParticipantDrawing st sid).1 := by
  rw [toggleParticipantDrawing]
  split
  · exact hg
  · dsimp only
    split
    · exact hg
    · rename_i room heq
      exact good_set_room hg heq rfl

theorem good_toggleParticipantChat (st : ServerState) (sid : String) (hg : Good st) :
    Good (toggleParticipantChat st sid).1 := by
  rw [toggleParticipantChat]
  split
  · exact hg
  · dsimp only
    split
    · exact hg
    · rename_i room heq
      exact good_set_room hg heq rfl

theorem good_leaveRoomFn (st : ServerState) (sid : String) (hg : Good st) :
    Good (leaveRoomFn st sid).1 := by
  rw [leaveRoomFn]
  split
  · exact hg
  · rename_i ui hui
    split
    · exact good_cu _ hg
    · rename_i room heq
      dsimp only
      split
      · exact good_rooms_delete _ _ hg
      · split
        · exact good_rooms_delete _ _ hg
        · exact good_set_room_delete sid (good_cu _ hg) heq

theorem good_kickParticipant (st : ServerState) (sid target : String) (hg : Good st) :
    Good (kickParticipant st sid target).1 := by
  rw [kickParticipant]
  split
  · exact hg
  · split
    · exact hg
    · split
      · exact good_leaveRoomFn st target hg
      · exact hg

theorem good_init : Good initState := by
  refine ⟨⟨by simp [initState], ?_⟩, ?_, ?_, ?_⟩
  · intro p hp
    simp [initState] at hp
  · intro p hp
    simp [initState] at hp
  · intro p hp
    simp [initState] at hp
  · intro s rid hb hrole p hp
    simp [initState] at hp

theorem good_step (st : ServerState) (e : Event) (hg : Good st) : Good (step st e).1 := by
  cases e with
  | create sid r u n => exact good_createRoom st sid r u n hg
  | join sid r u n => exact good_joinRoom st sid r u n hg
  | ready sid b => exact good_toggleReady st sid b hg
  | start sid => exact good_startSession st sid hg
  | draw sid d n => exact good_drawingStep st sid d n hg
  | chat sid => exact good_chatMessage st sid hg
  | uploadStarted sid => exact good_fileUploadStarted st sid hg
  | bgSet sid img => exact good_backgroundImageSet st sid img hg
  | bgCleared sid => exact good_backgroundCleared st sid hg
  | fileShare sid t dta => exact good_fileShared st sid t dta hg
  | presShare sid sl cs => exact good_presentationShared st sid sl cs hg
  | slideChange sid i => exact good_slideChanged st sid i hg
  | slideClear sid i => exact good_slideDrawingsCleared st sid i hg
  | text sid p n => exact good_textAdded st sid p n hg
  | canvasClear sid => exact good_clearCanvas st sid hg
  | toggleDraw sid => exact good_toggleParticipantDrawing st sid hg
  | toggleChat sid => exact good_toggleParticipantChat st sid hg
  | kick sid t => exact good_kickParticipant st sid t hg
  | leave sid => exact good_leaveRoomFn st sid hg
  | disconnect sid => exact good_leaveRoomFn st sid hg
  | sweep n => exact good_reap st n hg

theorem good_foldl (es : List Event) (st : ServerState) (hg : Good st) :
    Good (es.foldl (fun s e => (step s e).1) st) := by
  induction es generalizing st with
  | nil => exact hg
  | cons e rest ih => exact ih _ (good_step st e hg)

theorem good_run (es : List Event) : Good (run es) :=
  good_foldl es initState good_init

/-! ### Claim theorems -/

/-- C6: a create-room request whose id already maps to a live room is answered
with `room-exists` to the sender only, creates no second room, and leaves the
whole server state (in particular the existing room and the registry)
unchanged. -/
theorem C6_create_collision (st : ServerState) (sid roomId username : String) (now : Nat)
    (h1 : roomId ≠ "") (h2 : username ≠ "") (h3 : mapHas st.rooms roomId = true) :
    createRoom st sid roomId username now = (st, [⟨.sender sid, "room-exists"⟩]) := by
  rw [createRoom, if_neg (by simp [h1, h2]), if_pos h3]

/-- C6 witness: the collision branch exercised against a concrete registry. -/
theorem C6_create_collision_witness :
    createRoom (run createTrace) "B" "R" "bob" 1 =
      (run createTrace, [⟨.sender "B", "room-exists"⟩]) :=
  C6_create_collision (run createTrace) "B" "R" "bob" 1 (by decide) (by decide) (by decide)

/-- C7: a join-room request for an unknown room answers `room-not-found` with no
state change, and a join-room request for a room whose participant count has
reached the configured cap answers `room-full` with no state change (so the
directory size does not increase). -/
theorem C7_join_room_guards (st : ServerState) (sid roomId username : String) (now : Nat) :
    (mapGet st.rooms roomId = none →
      joinRoom st sid roomId username now = (st, [⟨.sender sid, "room-not-found"⟩])) ∧
    (∀ room, mapGet st.rooms roomId = some room →
      room.settings.maxParticipants ≤ room.participants.length →
      joinRoom st sid roomId username now = (st, [⟨.sender sid, "room-full"⟩])) := by
  constructor
  · intro h
    rw [joinRoom, h]
  · intro room h hfull
    rw [joinRoom, h]
    dsimp only
    rw [if_pos hfull]

/-- C7 witness: both failure branches exercised on concrete states. -/
theorem C7_join_room_guards_witness :
    joinRoom fullState "B" "F" "bob" 3 = (fullState, [⟨.sender "B", "room-full"⟩]) ∧
    joinRoom fullState "B" "X" "bob" 3 = (fullState, [⟨.sender "B", "room-not-found"⟩]) :=
  ⟨(C7_join_room_guards fullState "B" "F" "bob" 3).2 fullRoom (by decide) (by decide),
   (C7_join_room_guards fullState "B" "X" "bob" 3).1 (by decide)⟩

/-- C5: for a clear-canvas event from a bound sender whose room exists, the
clear is performed and broadcast room-wide exactly when the sender's bound role
is host or the room's hostCanClear flag is false; otherwise nothing is mutated
and nothing is emitted. -/
theorem C5_clear_canvas_gate (st : ServerState) (sid rid : String) (room : Room)
    (hb : (getSocket st sid).roomId = some rid) (hne : rid ≠ "")
    (hr : mapGet st.rooms rid = some room) :
    (((getSocket st sid).role = some "host" ∨ room.settings.hostCanClear = false) →
      (roomAt (clearCanvas st sid).1 rid).map Room.drawings = some [] ∧
      (roomAt (clearCanvas st sid).1 rid).map Room.slideDrawings =
        some (mapDelete room.slideDrawings room.currentSlide) ∧
      (clearCanvas st sid).2 = [⟨.roomAll rid, "clear-canvas"⟩]) ∧
    (¬ ((getSocket st sid).role = some "host" ∨ room.settings.hostCanClear = false) →
      clearCanvas st sid = (st, [])) := by
  constructor
  · intro hperm
    simp [clearCanvas, hb, truthy, hne, hr, hperm, roomAt, mapGet_mapSet_self]
  · intro hperm
    simp [clearCanvas, hb, truthy, hne, hr, hperm]

/-- C5 witness: the host clears; the clear is performed and broadcast. -/
theorem C5_clear_canvas_gate_witness :
    (roomAt (clearCanvas (run activeTrace) "A").1 "R").map Room.drawings = some [] ∧
    (clearCanvas (run activeTrace) "A").2 = [⟨.roomAll "R", "clear-canvas"⟩] := by
  have h := (C5_clear_canvas_gate (run activeTrace) "A" "R" roomRActive
    (by decide) (by decide) (by decide)).1 (Or.inl (by decide))
  exact ⟨h.1, h.2.2⟩

/-- C10: a permitted clear-canvas empties the flat drawing log and deletes only
the current slide's per-slide drawing log; every other slide's log, the slide
deck, the current slide index, the background image, the settings block, the
participant directory, all other rooms, and the connection bindings are
unchanged. -/
theorem C10_clear_canvas_frame (st : ServerState) (sid rid : String) (room : Room)
    (hb : (getSocket st sid).roomId = some rid) (hne : rid ≠ "")
    (hr : mapGet st.rooms rid = some room)
    (hperm : (getSocket st sid).role = some "host" ∨ room.settings.hostCanClear = false) :
    roomAt (clearCanvas st sid).1 rid =
      some { room with drawings := [], slideDrawings := mapDelete room.slideDrawings room.currentSlide } ∧
    mapGet (mapDelete room.slideDrawings room.currentSlide) room.currentSlide = none ∧
    (∀ i, i ≠ room.currentSlide →
      mapGet (mapDelete room.slideDrawings room.currentSlide) i = mapGet room.slideDrawings i) ∧
    (∀ rid2, rid2 ≠ rid → mapGet (clearCanvas st sid).1.rooms rid2 = mapGet st.rooms rid2) ∧
    (clearCanvas st sid).1.connectedUsers = st.connectedUsers ∧
    (clearCanvas st sid).1.sockets = st.sockets ∧
    (clearCanvas st sid).2 = [⟨.roomAll rid, "clear-canvas"⟩] := by
  have hmain : clearCanvas st sid =
      ({ st with rooms := mapSet st.rooms rid { room with drawings := [], slideDrawings := mapDelete room.slideDrawings room.currentSlide } },
       [⟨.roomAll rid, "clear-canvas"⟩]) := by
    simp [clearCanvas, hb, truthy, hne, hr, hperm]
  rw [hmain]
  refine ⟨?_, mapGet_mapDelete_self _ _, ?_, ?_, rfl, rfl, rfl⟩
  · rw [roomAt]
    exact mapGet_mapSet_self _ _ _
  · intro i hi
    exact mapGet_mapDelete_ne _ _ _ hi
  · intro rid2 h2
    exact mapGet_mapSet_ne _ _ _ _ h2

/-- C10 witness: the frame conditions exercised on a concrete active room. -/
theorem C10_clear_canvas_frame_witness :
    roomAt (clearCanvas (run activeTrace) "A").1 "R" =
      some { roomRActive with drawings := [], slideDrawings := mapDelete roomRActive.slideDrawings roomRActive.currentSlide } ∧
    (clearCanvas (run activeTrace) "A").1.sockets = (run activeTrace).sockets := by
  have h := C10_clear_canvas_frame (run activeTrace) "A" "R" roomRActive
    (by decide) (by decide) (by decide) (Or.inl (by decide))
  exact ⟨h.1, h.2.2.2.2.2.1⟩

/-- C8: the six artifact-mutation handlers check only that the sender carries a
bound room id and that the room exists: with the room in lobby state, the
sender's bound role being participant, and the sender absent from the
participant directory, every one of them still applies its mutation and
rebroadcasts to everyone but the sender. -/
theorem C8_artifact_events_unchecked (st : ServerState)
    (sid rid img ftype fdata : String) (slides : List String) (cs : Option Nat)
    (idx idx2 : Nat) (room : Room)
    (hb : (getSocket st sid).roomId = some rid) (hne : rid ≠ "")
    (hr : mapGet st.rooms rid = some room)
    (_hlobby : room.state = "lobby")
    (_hnotmem : mapGet room.participants sid = none)
    (_hrole : (getSocket st sid).role = some "participant") :
    (backgroundImageSet st sid img =
      ({ st with rooms := mapSet st.rooms rid { room with backgroundImage := some img, slides := [img], currentSlide := 0 } },
       [⟨.roomOthers rid sid, "background-image-set"⟩])) ∧
    (backgroundCleared st sid =
      ({ st with rooms := mapSet st.rooms rid { room with backgroundImage := none, slides := [], currentSlide := 0, slideDrawings := [] } },
       [⟨.roomOthers rid sid, "background-cleared"⟩])) ∧
    (ftype = "image" → fileShared st sid ftype fdata =
      ({ st with rooms := mapSet st.rooms rid { room with backgroundImage := some fdata, slides := [fdata], currentSlide := 0 } },
       [⟨.roomOthers rid sid, "file-shared"⟩])) ∧
    (presentationShared st sid slides cs =
      ({ st with rooms := mapSet st.rooms rid { room with slides := slides, currentSlide := cs.getD 0, slideDrawings := [] } },
       [⟨.roomOthers rid sid, "presentation-shared"⟩])) ∧
    (slideChanged st sid idx =
      ({ st with rooms := mapSet st.rooms rid { room with currentSlide := idx } },
       [⟨.roomOthers rid sid, "slide-changed"⟩])) ∧
    (slideDrawingsCleared st sid idx2 =
      ({ st with rooms := mapSet st.rooms rid { room with slideDrawings := mapDelete room.slideDrawings idx2 } },
       [⟨.roomOthers rid sid, "slide-drawings-cleared"⟩])) := by
  refine ⟨?_, ?_, ?_, ?_, ?_, ?_⟩
  · simp [backgroundImageSet, hb, truthy, hne, hr]
  · simp [backgroundCleared, hb, truthy, hne, hr]
  · intro hf
    simp [fileShared, hb, truthy, hne, hr, hf]
  · simp [presentationShared, hb, truthy, hne, hr]
  · simp [slideChanged, hb, truthy, hne, hr]
  · simp [slideDrawingsCleared, hb, truthy, hne, hr]

/-- C8 witness: a departed participant ("B" left the lobby room, yet keeps its
socket binding) still changes the slide and replaces the background. -/
theorem C8_artifact_events_unchecked_witness :
    (roomAt (slideChanged (run c8Trace) "B" 3).1 "R").map Room.currentSlide = some 3 ∧
    (roomAt (backgroundImageSet (run c8Trace) "B" "img").1 "R").map Room.backgroundImage =
      some (some "img") := by
  have h := C8_artifact_events_unchecked (run c8Trace) "B" "R" "img" "image" "d"
    ["s"] none 3 0 roomR (by decide) (by decide) (by decide) (by decide) (by decide)
    (by decide)
  constructor
  · rw [h.2.2.2.2.1]
    decide
  · rw [h.1]
    decide

/-- C1 counterexample: after a stroke is drawn on slide 0 of a shared
presentation, a `background-image-set` replacement leaves the per-slide drawing
log of slide 0 non-empty, so the claimed reset property is false for the
background-image-set handler. -/
theorem C1_counterexample :
    freshDeck (run c1Trace) "R" = false ∧ (roomAt (run c1Trace) "R").isSome = true := by
  exact ⟨by decide, by decide⟩

/-- C1 (amended): background-image-set and file-shared with kind image reset
the current slide index to 0 but leave every per-slide drawing log exactly as
it was; presentation-shared empties all per-slide drawing logs but sets the
current slide index to the payload's value (0 only when the payload omits it or
sends 0); background-cleared both resets the index and empties the logs. -/
theorem C1_amended_reset_behavior (st : ServerState)
    (sid rid img ftype fdata : String) (slides : List String) (cs : Option Nat)
    (room : Room)
    (hb : (getSocket st sid).roomId = some rid) (hne : rid ≠ "")
    (hr : mapGet st.rooms rid = some room) :
    ((roomAt (backgroundImageSet st sid img).1 rid).map
        (fun r => (r.currentSlide, r.slideDrawings)) = some (0, room.slideDrawings)) ∧
    (ftype = "image" → (roomAt (fileShared st sid ftype fdata).1 rid).map
        (fun r => (r.currentSlide, r.slideDrawings)) = some (0, room.slideDrawings)) ∧
    ((roomAt (presentationShared st sid slides cs).1 rid).map
        (fun r => (r.currentSlide, r.slideDrawings)) = some (cs.getD 0, [])) ∧
    ((roomAt (backgroundCleared st sid).1 rid).map
        (fun r => (r.currentSlide, r.slideDrawings)) = some (0, [])) := by
  refine ⟨?_, ?_, ?_, ?_⟩
  · simp [backgroundImageSet, hb, truthy, hne, hr, roomAt, mapGet_mapSet_self]
  · intro hf
    simp [fileShared, hb, truthy, hne, hr, hf, roomAt, mapGet_mapSet_self]
  · simp [presentationShared, hb, truthy, hne, hr, roomAt, mapGet_mapSet_self]
  · simp [backgroundCleared, hb, truthy, hne, hr, roomAt, mapGet_mapSet_self]

/-- C1 witness: a presentation shared with payload index 1 lands on slide 1
with empty logs; a background image keeps the (empty) logs and lands on 0. -/
theorem C1_amended_reset_behavior_witness :
    (roomAt (presentationShared (run createTrace) "A" ["s1", "s2"] (some 1)).1 "R").map
        (fun r => (r.currentSlide, r.slideDrawings)) = some (1, []) ∧
    (roomAt (backgroundImageSet (run createTrace) "A" "img").1 "R").map
        (fun r => (r.currentSlide, r.slideDrawings)) = some (0, roomR.slideDrawings) := by
  have h := C1_amended_reset_behavior (run createTrace) "A" "R" "img" "image" "d"
    ["s1", "s2"] (some 1) roomR (by decide) (by decide) (by decide)
  exact ⟨h.2.2.1, h.1⟩

/-- C2 counterexample: from a fresh room (empty deck, index 0), a single
`slide-changed` event with payload index 5 reaches a live room whose current
slide index is 5 while the deck is empty, violating the claimed invariant. -/
theorem C2_counterexample :
    slideOk (run c2Trace) "R" = false ∧ (roomAt (run c2Trace) "R").isSome = true := by
  exact ⟨by decide, by decide⟩

/-- C2 (amended): the deck/index invariant holds at room creation and is
(re)established by background-image-set and background-cleared and preserved by
file-shared; it is NOT enforced by slide-changed or presentation-shared, which
write the payload index without validation (see the counterexample). -/
theorem C2_amended_slide_invariant (st : ServerState)
    (sid rid img ftype fdata : String) (room : Room)
    (hb : (getSocket st sid).roomId = some rid) (hne : rid ≠ "")
    (hr : mapGet st.rooms rid = some room) :
    slideOk (backgroundImageSet st sid img).1 rid = true ∧
    slideOk (backgroundCleared st sid).1 rid = true ∧
    (slideInvariant room = true → slideOk (fileShared st sid ftype fdata).1 rid = true) ∧
    (∀ sid2 roomId2 username2 now2, roomId2 ≠ "" → username2 ≠ "" →
      mapHas st.rooms roomId2 = false →
      slideOk (createRoom st sid2 roomId2 username2 now2).1 roomId2 = true) := by
  refine ⟨?_, ?_, ?_, ?_⟩
  · simp [backgroundImageSet, hb, truthy, hne, hr, slideOk, roomAt,
      mapGet_mapSet_self, slideInvariant]
  · simp [backgroundCleared, hb, truthy, hne, hr, slideOk, roomAt,
      mapGet_mapSet_self, slideInvariant]
  · intro hinv
    by_cases hf : ftype = "image"
    · simp [fileShared, hb, truthy, hne, hr, hf, slideOk, roomAt,
        mapGet_mapSet_self, slideInvariant]
    · simp [fileShared, hb, truthy, hne, hr, hf, slideOk, roomAt,
        mapGet_mapSet_self, hinv]
  · intro sid2 roomId2 username2 now2 hne2 hnu hnew
    simp [createRoom, hne2, hnu, hnew, slideOk, roomAt, mapGet_mapSet_self, slideInvariant]

/-- C2 witness: the invariant concretely holds after a background image is set
on a fresh room. -/
theorem C2_amended_slide_invariant_witness :
    slideOk (backgroundImageSet (run createTrace) "A" "img").1 "R" = true ∧
    slideInvariant roomR = true :=
  ⟨(C2_amended_slide_invariant (run createTrace) "A" "R" "img" "t" "d" roomR
      (by decide) (by decide) (by decide)).1, by decide⟩

/-- C4 counterexample: the host connection re-joins its own room; `join-room`
overwrites its directory entry with role participant, so the room is still live
(in the registry) but its host-role participant count is 0, refuting "exactly
one host while the room is live". -/
theorem C4_counterexample :
    (roomAt (run c4Trace) "R").map hostCount = some 0 := by
  decide

/-- C4 (amended): every reachable live room has AT MOST one host-role directory
entry (the count can drop to zero only because a join-room from the host's own
connection overwrites its entry with role participant); and whenever a
connection whose bound role is host departs (leave or disconnect), a room-ended
notice is emitted to the room and the room is deleted from the registry
unconditionally in the same step. -/
theorem C4_amended_host_uniqueness :
    (∀ es : List Event, ∀ p ∈ (run es).rooms, hostCount p.2 ≤ 1) ∧
    (∀ (st : ServerState) (sid : String) (ui : UserInfo) (room : Room),
      mapGet st.connectedUsers sid = some ui →
      mapGet st.rooms ui.roomId = some room →
      (getSocket st sid).role = some "host" →
      mapGet (leaveRoomFn st sid).1.rooms ui.roomId = none ∧
      (leaveRoomFn st sid).2 = [⟨.roomAll ui.roomId, "room-ended"⟩]) := by
  constructor
  · intro es p hp
    exact (good_run es).2.1 p hp
  · intro st sid ui room hui hr hrole
    rw [leaveRoomFn, hui]
    dsimp only
    rw [hr]
    dsimp only
    rw [if_pos hrole]
    exact ⟨mapGet_mapDelete_self _ _, rfl⟩

/-- C4 witness: the single created room has one host, and the host's leave
deletes the room and emits room-ended. -/
theorem C4_amended_host_uniqueness_witness :
    hostCount roomR ≤ 1 ∧
    mapGet (leaveRoomFn (run createTrace) "A").1.rooms "R" = none ∧
    (leaveRoomFn (run createTrace) "A").2 = [⟨.roomAll "R", "room-ended"⟩] := by
  refine ⟨C4_amended_host_uniqueness.1 createTrace ("R", roomR) (by decide), ?_⟩
  exact C4_amended_host_uniqueness.2 (run createTrace) "A" ⟨"R", "alice", "host"⟩ roomR
    (by decide) (by decide) (by decide)

/-- C9: in every reachable state, every directory entry with role host has its
readiness flag true; the flag is seeded true at room creation; and a
toggle-ready event from a sender whose bound role is host is silently dropped,
mutating nothing and emitting nothing. -/
theorem C9_host_always_ready :
    (∀ es : List Event, ∀ p ∈ (run es).rooms, ∀ q ∈ p.2.participants,
      q.2.role = "host" → q.2.ready = true) ∧
    (∀ (st : ServerState) (sid : String) (b : Bool),
      (getSocket st sid).role = some "host" → toggleReady st sid b = (st, [])) ∧
    (∀ (st : ServerState) (sid roomId username : String) (now : Nat),
      roomId ≠ "" → username ≠ "" → mapHas st.rooms roomId = false →
      (roomAt (createRoom st sid roomId username now).1 roomId).map
        (fun r => mapGet r.participants sid) =
        some (some ⟨sid, username, "host", true, now⟩)) := by
  refine ⟨?_, ?_, ?_⟩
  · intro es p hp q hq hrole
    exact (good_run es).2.2.1 p hp q hq hrole
  · intro st sid b hrole
    rw [toggleReady, if_pos (Or.inr (by rw [hrole]; simp))]
  · intro st sid roomId username now h1 h2 h3
    rw [createRoom, if_neg (by simp [h1, h2]), if_neg (by simp [h3])]
    simp [roomAt, mapGet_mapSet_self, mapGet_cons]

/-- C9 witness: the concrete created room's host entry is ready, and the host's
own toggle-ready event is a no-op. -/
theorem C9_host_always_ready_witness :
    (Participant.mk "A" "alice" "host" true 0).ready = true ∧
    toggleReady (run createTrace) "A" false = (run createTrace, []) := by
  refine ⟨?_, C9_host_always_ready.2.1 (run createTrace) "A" false (by decide)⟩
  exact C9_host_always_ready.1 createTrace ("R", roomR) (by decide)
    ("A", ⟨"A", "alice", "host", true, 0⟩) (by decide) (by decide)

/-- C3: for a drawing event from a bound sender: when the room is active, the
sender is a directory member, and the member is host or participants-may-draw
is set, the event is relayed to all-but-sender, and a record is appended to the
flat drawing log (and, when a slide index is present, to that slide's log)
exactly when the event kind is "draw"; kind "start"/"stop" events meeting the
same conditions are relayed but append no record to any log; an out-of-state,
non-member or permission-denied event mutates nothing and emits nothing. -/
theorem C3_drawing_gate (st : ServerState) (sid rid : String) (d : DrawPayload) (now : Nat)
    (hb : (getSocket st sid).roomId = some rid) (hne : rid ≠ "") :
    (∀ room participant, mapGet st.rooms rid = some room → room.state = "active" →
      mapGet room.participants sid = some participant →
      (participant.role = "host" ∨ room.settings.participantsCanDraw = true) →
      ((drawingStep st sid d now).2 = [⟨.roomOthers rid sid, "drawing"⟩] ∧
       (d.dtype = "draw" →
         (roomAt (drawingStep st sid d now).1 rid).map Room.drawings =
           some (room.drawings ++ [⟨d.dtype, d.slideIndex, d.payload, sid,
             (getSocket st sid).username.getD "", (getSocket st sid).role.getD "", now⟩]) ∧
         (∀ i, d.slideIndex = some i →
           (roomAt (drawingStep st sid d now).1 rid).map
               (fun r2 => (mapGet r2.slideDrawings i).getD []) =
             some ((mapGet room.slideDrawings i).getD [] ++ [⟨d.dtype, d.slideIndex,
               d.payload, sid, (getSocket st sid).username.getD "",
               (getSocket st sid).role.getD "", now⟩]))) ∧
       (d.dtype ≠ "draw" →
         (roomAt (drawingStep st sid d now).1 rid).map Room.drawings = some room.drawings ∧
         (∀ i, (roomAt (drawingStep st sid d now).1 rid).map
             (fun r2 => (mapGet r2.slideDrawings i).getD []) =
           some ((mapGet room.slideDrawings i).getD []))))) ∧
    (∀ room, mapGet st.rooms rid = some room → room.state ≠ "active" →
      drawingStep st sid d now = (st, [])) ∧
    (∀ room, mapGet st.rooms rid = some room → mapGet room.participants sid = none →
      drawingStep st sid d now = (st, [])) ∧
    (∀ room participant, mapGet st.rooms rid = some room →
      mapGet room.participants sid = some participant →
      ¬ (participant.role = "host" ∨ room.settings.participantsCanDraw = true) →
      drawingStep st sid d now = (st, [])) := by
  refine ⟨?_, ?_, ?_, ?_⟩
  · intro room participant hr hstate hpart hcan
    refine ⟨?_, ?_, ?_⟩
    · simp [drawingStep, hb, truthy, hne, hr, hstate, hpart, hcan]
    · intro hdt
      constructor
      · simp [drawingStep, hb, truthy, hne, hr, hstate, hpart, hcan, hdt, roomAt,
          mapGet_mapSet_self]
      · intro i hi
        by_cases hhas : mapHas room.slideDrawings i = true
        · obtain ⟨l, hl⟩ := mapHas_true_get_some hhas
          simp [drawingStep, hb, truthy, hne, hr, hstate, hpart, hcan, hdt, hi, hhas,
            roomAt, mapGet_mapSet_self, mapGet_mapUpdate_self, hl]
        · have hnone := mapHas_false_get_none (show mapHas room.slideDrawings i = false by
            simpa using hhas)
          simp [drawingStep, hb, truthy, hne, hr, hstate, hpart, hcan, hdt, hi, hhas,
            roomAt, mapGet_mapSet_self, mapGet_mapUpdate_self, hnone]
    · intro hdt
      constructor
      · simp [drawingStep, hb, truthy, hne, hr, hstate, hpart, hcan, hdt, roomAt,
          mapGet_mapSet_self]
      · intro i
        rcases hsi : d.slideIndex with _ | j
        · simp [drawingStep, hb, truthy, hne, hr, hstate, hpart, hcan, hdt, hsi, roomAt,
            mapGet_mapSet_self]
        · by_cases hhas : mapHas room.slideDrawings j = true
          · simp [drawingStep, hb, truthy, hne, hr, hstate, hpart, hcan, hdt, hsi, hhas,
              roomAt, mapGet_mapSet_self]
          · by_cases hij : i = j
            · subst hij
              have hnone := mapHas_false_get_none (show mapHas room.slideDrawings i = false by
                simpa using hhas)
              simp [drawingStep, hb, truthy, hne, hr, hstate, hpart, hcan, hdt, hsi, hhas,
                roomAt, mapGet_mapSet_self, hnone]
            · simp [drawingStep, hb, truthy, hne, hr, hstate, hpart, hcan, hdt, hsi, hhas,
                roomAt, mapGet_mapSet_self, mapGet_mapSet_ne _ _ _ _ hij]
  · intro room hr hstate
    simp [drawingStep, hb, truthy, hne, hr, hstate]
  · intro room hr hpart
    by_cases hstate : room.state = "active"
    · simp [drawingStep, hb, truthy, hne, hr, hstate, hpart]
    · simp [drawingStep, hb, truthy, hne, hr, hstate]
  · intro room participant hr hpart hcan
    by_cases hstate : room.state = "active"
    · simp [drawingStep, hb, truthy, hne, hr, hstate, hpart, hcan]
    · simp [drawingStep, hb, truthy, hne, hr, hstate]

/-- C3 witness: the active host's "draw" stroke is persisted and relayed, its
"start" marker is relayed but not persisted, and a lobby-state stroke is
dropped entirely. -/
theorem C3_drawing_gate_witness :
    (roomAt (drawingStep (run activeTrace) "A" ⟨"draw", some 0, "p"⟩ 5).1 "R").map
        Room.drawings = some [⟨"draw", some 0, "p", "A", "alice", "host", 5⟩] ∧
    (roomAt (drawingStep (run activeTrace) "A" ⟨"start", some 0, "p"⟩ 5).1 "R").map
        Room.drawings = some [] ∧
    drawingStep (run createTrace) "A" ⟨"draw", some 0, "p"⟩ 5 = (run createTrace, []) := by
  refine ⟨?_, ?_, ?_⟩
  · have h := ((C3_drawing_gate (run activeTrace) "A" "R" ⟨"draw", some 0, "p"⟩ 5
      (by decide) (by decide)).1 roomRActive ⟨"A", "alice", "host", true, 0⟩
      (by decide) (by decide) (by decide) (Or.inl (by decide))).2.1 rfl
    exact h.1
  · have h := ((C3_drawing_gate (run activeTrace) "A" "R" ⟨"start", some 0, "p"⟩ 5
      (by decide) (by decide)).1 roomRActive ⟨"A", "alice", "host", true, 0⟩
      (by decide) (by decide) (by decide) (Or.inl (by decide))).2.2 (by decide)
    exact h.1
  · exact (C3_drawing_gate (run createTrace) "A" "R" ⟨"draw", some 0, "p"⟩ 5
      (by decide) (by decide)).2.1 roomR (by decide) (by decide)

end WB
